import Mathlib

/-!
# Exit management of the trading bot: `Index.js`, `Config.js`, `Model/Sell_decision.js`

A shallow embedding of the position ledger (`boughtTokens`), of `executeBuy`,
`executeSell`, `getPriceTarget`, `shouldSell` and of the body of the monitor
callback, followed by the properties of the exit rules.

Modelling conventions.

* A JavaScript number is a `JSNum`: an exact rational, `+Infinity`, `-Infinity`
  or `NaN`.  Products, quotients and sums are exact: rounding of doubles and
  overflow to infinity are not modelled, and `-0` is identified with `0` (a zero
  divisor counts as `+0`).  The values in the concrete evaluations below are
  exact in doubles as well (quarters, small integers, `0 / 0`, `5 / 0`), or are
  compared with a constant at a margin that rounding does not close.
* A field that is missing from a fetched object (`undefined`) is represented by
  `NaN`: in every arithmetic and relational use the code makes of such a field
  `undefined` is first converted to `NaN`.
* The router swap (`parseUnits`, `swapExactTokensForETH` / `swapExactETHForTokens`,
  `tx.wait()`) is an external call; its outcome is the Boolean `swapOk`
  (`false`: the call throws).
* `boughtTokens` (a map of maps) is a function of the two keys; a missing
  inner map and an empty one behave alike in all code modelled here.
-/

namespace Autobuysell

/-! ## JavaScript numbers -/

/-- A JavaScript number: finite (exact rational), the two infinities, or NaN. -/
inductive JSNum where
  | fin (q : ℚ)
  | posInf
  | negInf
  | nan
  deriving DecidableEq

namespace JSNum

/-- Unary minus. -/
def neg : JSNum → JSNum
  | fin q => fin (-q)
  | posInf => negInf
  | negInf => posInf
  | nan => nan

/-- The operator `+` on numbers. -/
def add : JSNum → JSNum → JSNum
  | fin a, fin b => fin (a + b)
  | fin _, posInf => posInf
  | fin _, negInf => negInf
  | posInf, fin _ => posInf
  | posInf, posInf => posInf
  | posInf, negInf => nan
  | negInf, fin _ => negInf
  | negInf, negInf => negInf
  | negInf, posInf => nan
  | nan, _ => nan
  | _, nan => nan

/-- The operator `-` on numbers. -/
def sub (a b : JSNum) : JSNum := add a (neg b)

/-- The sign rule for a product or quotient that is infinite. -/
def signedInf (positive : Bool) : JSNum := if positive then posInf else negInf

/-- The operator `*` on numbers. -/
def mul : JSNum → JSNum → JSNum
  | fin a, fin b => fin (a * b)
  | fin a, posInf => if a = 0 then nan else signedInf (decide (0 < a))
  | fin a, negInf => if a = 0 then nan else signedInf (decide (a < 0))
  | posInf, fin b => if b = 0 then nan else signedInf (decide (0 < b))
  | negInf, fin b => if b = 0 then nan else signedInf (decide (b < 0))
  | posInf, posInf => posInf
  | posInf, negInf => negInf
  | negInf, posInf => negInf
  | negInf, negInf => posInf
  | nan, _ => nan
  | _, nan => nan

/-- The operator `/` on numbers (a zero divisor is `+0`). -/
def div : JSNum → JSNum → JSNum
  | fin a, fin b =>
      if b = 0 then (if a = 0 then nan else signedInf (decide (0 < a))) else fin (a / b)
  | fin _, posInf => fin 0
  | fin _, negInf => fin 0
  | posInf, fin b => signedInf (decide (0 ≤ b))
  | negInf, fin b => signedInf (decide (b < 0))
  | posInf, posInf => nan
  | posInf, negInf => nan
  | negInf, posInf => nan
  | negInf, negInf => nan
  | nan, _ => nan
  | _, nan => nan

/-- The function `Math.floor`. -/
def floor : JSNum → JSNum
  | fin q => fin (⌊q⌋ : ℤ)
  | posInf => posInf
  | negInf => negInf
  | nan => nan

/-- The operator `<=`: false as soon as one side is NaN. -/
def le : JSNum → JSNum → Bool
  | fin a, fin b => decide (a ≤ b)
  | fin _, posInf => true
  | fin _, negInf => false
  | posInf, posInf => true
  | posInf, _ => false
  | negInf, nan => false
  | negInf, _ => true
  | nan, _ => false
  | fin _, nan => false

/-- The operator `<`: false as soon as one side is NaN. -/
def lt : JSNum → JSNum → Bool
  | fin a, fin b => decide (a < b)
  | fin _, posInf => true
  | fin _, negInf => false
  | posInf, _ => false
  | negInf, negInf => false
  | negInf, nan => false
  | negInf, _ => true
  | nan, _ => false
  | fin _, nan => false

/-- The operator `>=`. -/
def ge (a b : JSNum) : Bool := le b a

/-- The operator `>`. -/
def gt (a b : JSNum) : Bool := lt b a

/-- The operator `===` between numbers: NaN equals nothing. -/
def strictEq : JSNum → JSNum → Bool
  | fin a, fin b => decide (a = b)
  | posInf, posInf => true
  | negInf, negInf => true
  | _, _ => false

/-- Array access `xs[i]` with a number as index: `none` is `undefined`
(index not a non-negative integer, or past the end). -/
def index (xs : List ℚ) : JSNum → Option ℚ
  | fin q => if 0 ≤ q ∧ q.den = 1 then xs[q.num.toNat]? else none
  | _ => none

/-- A value read from an array of numbers, `undefined` becoming NaN when it
is used in arithmetic. -/
def ofElem : Option ℚ → JSNum
  | some q => fin q
  | none => nan

end JSNum

open JSNum

/-! ## `Config.js` -/

/-- Field `mode` of the configuration. -/
inductive Mode where
  | real
  | simulated
  deriving DecidableEq

/-- The fields of `module.exports` in `Config.js` that the modelled code reads. -/
structure Config where
  mode : Mode
  riskLevel : ℚ
  wallets : List String
  buyAmount : ℚ
  maxBuyEth : ℚ
  sellIntervals : List ℚ
  priceTargets : List ℚ
  marketCapTarget : ℚ
  maxHoldTime : ℚ
  stopLoss : ℚ
  volumeSpikeThreshold : ℚ
  minProfit : ℚ

/-- The configuration as shipped in `Config.js`. -/
def config : Config where
  mode := Mode.real
  riskLevel := 50
  wallets := ["wallet1", "wallet2"]
  buyAmount := 0.05
  maxBuyEth := 0.1
  sellIntervals := [0.25, 0.5, 0.75, 1.0]
  priceTargets := [1.5, 2.0, 3.0, 5.0]
  marketCapTarget := 1000000
  maxHoldTime := 12
  stopLoss := 0.8
  volumeSpikeThreshold := 2.0
  minProfit := 1.2

/-! ## `Model/Sell_decision.js` -/

/-- What `getTokenData` returns when the request succeeds. -/
structure TokenData where
  price : JSNum
  volume : JSNum
  liquidity : JSNum
  marketCap : JSNum

/-- Function `shouldSell(tokenData, buyPrice, priceTarget)`. -/
def shouldSell (tokenData : TokenData) (_buyPrice : JSNum) (priceTarget : JSNum) : Bool :=
  JSNum.ge tokenData.price priceTarget

/-- The expression `Math.floor(soldPortions / 0.25)`. -/
def intervalIndex (soldPortions : JSNum) : JSNum :=
  JSNum.floor (JSNum.div soldPortions (fin 0.25))

/-- The expression `a || b` for an array element `a` (falsy: `undefined`, `0`). -/
def orElse (a b : Option ℚ) : Option ℚ :=
  match a with
  | some m => if m = 0 then b else some m
  | none => b

/-- Function `getPriceTarget(buyPrice, soldPortions)`. -/
def getPriceTarget (cfg : Config) (buyPrice soldPortions : JSNum) : JSNum :=
  let nextIntervalIndex := intervalIndex soldPortions
  let multiplier := orElse (JSNum.index cfg.priceTargets nextIntervalIndex)
    (cfg.priceTargets[cfg.priceTargets.length - 1]?)
  JSNum.mul buyPrice (JSNum.ofElem multiplier)

/-! ## The ledger `boughtTokens` -/

/-- One record of `boughtTokens`. -/
structure Position where
  amount : ℚ
  buyPrice : JSNum
  buyTime : ℤ
  soldPortions : JSNum
  initialVolume : JSNum

/-- The map `boughtTokens`: wallet address, then token address. -/
abbrev Ledger := String → String → Option Position

/-- The empty map. -/
def Ledger.empty : Ledger := fun _ _ => none

/-- Effect of `walletBought.set(tokenAddress, rec)` for the wallet `w`. -/
def Ledger.set (l : Ledger) (w t : String) (r : Position) : Ledger :=
  fun w' t' => if w' = w ∧ t' = t then some r else l w' t'

/-- Effect of `walletBought.delete(tokenAddress)` for the wallet `w`. -/
def Ledger.delete (l : Ledger) (w t : String) : Ledger :=
  fun w' t' => if w' = w ∧ t' = t then none else l w' t'

/-- Function `validateToken(tokenAddress)` applied to what `getTokenData`
returned; `none` is the result `false`. -/
def validateToken (cfg : Config) (fetched : Option TokenData) : Option TokenData :=
  match fetched with
  | none => none
  | some data =>
      let minLiquidity := JSNum.mul (fin 10000) (JSNum.div (fin cfg.riskLevel) (fin 100))
      let minVolume := JSNum.mul (fin 50000) (JSNum.div (fin cfg.riskLevel) (fin 100))
      if JSNum.lt data.liquidity minLiquidity || JSNum.lt data.volume minVolume then none
      else some data

/-- The amount the message handler hands to each `executeBuy` call:
`Math.min(buyAmount * (riskLevel / 100), maxBuyEth) / wallets.length`. -/
def amountPerWallet (cfg : Config) : ℚ :=
  min (cfg.buyAmount * (cfg.riskLevel / 100)) cfg.maxBuyEth / cfg.wallets.length

/-- How a call ends when it does not return. -/
inductive Failure where
  | swapFailed
  | typeError
  deriving DecidableEq

/-- Function `executeBuy(wallet, uniswap, tokenAddress, amountEth)`; `now` is
`Date.now()`, `fetched` the result of `getTokenData` (`none`: it returned null). -/
def executeBuy (cfg : Config) (l : Ledger) (w t : String) (amountEth : ℚ) (now : ℤ)
    (swapOk : Bool) (fetched : Option TokenData) : Except Failure Ledger :=
  if cfg.mode = Mode.simulated then .ok l
  else if !swapOk then .error Failure.swapFailed
  else
    match fetched with
    | none => .error Failure.typeError
    | some tokenData =>
        .ok (l.set w t
          { amount := amountEth
            buyPrice := tokenData.price
            buyTime := now
            soldPortions := fin 0
            initialVolume := tokenData.volume })

/-- The value stored by `tokenData.soldPortions += portion`. -/
def soldPortionsWritten (r : Position) (portion : JSNum) : JSNum :=
  JSNum.add r.soldPortions portion

/-- Function `executeSell(wallet, uniswap, tokenAddress, portion)`. -/
def executeSell (cfg : Config) (l : Ledger) (w t : String) (portion : JSNum)
    (swapOk : Bool) : Except Failure Ledger :=
  if cfg.mode = Mode.simulated then .ok l
  else
    match l w t with
    | none => .error Failure.typeError
    | some tokenData =>
        if !swapOk then .error Failure.swapFailed
        else
          let sold := soldPortionsWritten tokenData portion
          if JSNum.ge sold (fin 1) then .ok (l.delete w t)
          else .ok (l.set w t { tokenData with soldPortions := sold })

/-! ## The monitor callback -/

/-- Which branch of the monitor issued the sale (its log line). -/
inductive Reason where
  | maxHoldTime
  | marketCapTarget
  | stopLoss
  | volumeSpike
  | minProfit
  | priceTarget
  deriving DecidableEq

/-- One `executeSell` call made by the monitor. -/
structure SellCall where
  portion : JSNum
  reason : Reason
  deriving DecidableEq

/-- The expression `(Date.now() - buyTime) / (1000 * 60 * 60)`. -/
def hoursElapsed (now buyTime : ℤ) : JSNum :=
  fin (((now - buyTime : ℤ) : ℚ) / (1000 * 60 * 60))

/-- Condition of the max-hold-time branch. -/
def maxHoldCond (cfg : Config) (now : ℤ) (r : Position) : Bool :=
  JSNum.gt (hoursElapsed now r.buyTime) (fin cfg.maxHoldTime)

/-- Condition of the market-cap branch. -/
def marketCapCond (cfg : Config) (tokenData : TokenData) : Bool :=
  JSNum.ge tokenData.marketCap (fin cfg.marketCapTarget)

/-- The constant `priceRatio`. -/
def priceRatio (r : Position) (tokenData : TokenData) : JSNum :=
  JSNum.div tokenData.price r.buyPrice

/-- Condition of the stop-loss branch. -/
def stopLossCond (cfg : Config) (r : Position) (tokenData : TokenData) : Bool :=
  JSNum.le (priceRatio r tokenData) (fin cfg.stopLoss)

/-- Condition of the volume-spike branch. -/
def volumeSpikeCond (cfg : Config) (r : Position) (tokenData : TokenData) : Bool :=
  JSNum.gt tokenData.volume (JSNum.mul r.initialVolume (fin cfg.volumeSpikeThreshold))

/-- Condition of the minimum-profit branch. -/
def minProfitCond (cfg : Config) (r : Position) (tokenData : TokenData) : Bool :=
  JSNum.ge (priceRatio r tokenData) (fin cfg.minProfit) && JSNum.strictEq r.soldPortions (fin 0)

/-- Condition of the incremental-target branch. -/
def stagedCond (cfg : Config) (r : Position) (tokenData : TokenData) : Bool :=
  shouldSell tokenData r.buyPrice (getPriceTarget cfg r.buyPrice r.soldPortions)

/-- The portion `config.sellIntervals[Math.floor(soldPortions / 0.25)]`. -/
def stagedPortion (cfg : Config) (r : Position) : JSNum :=
  JSNum.ofElem (JSNum.index cfg.sellIntervals (intervalIndex r.soldPortions))

/-- The last block of the loop body ("Check incremental sell targets"). -/
def stagedDecision (cfg : Config) (r : Position) (tokenData : TokenData) : Option SellCall :=
  let priceTarget := getPriceTarget cfg r.buyPrice r.soldPortions
  if shouldSell tokenData r.buyPrice priceTarget then
    some { portion := stagedPortion cfg r, reason := Reason.priceTarget }
  else none

/-- The argument `1 - soldPortions` of the five sell-all branches. -/
def remaining (r : Position) : JSNum := JSNum.sub (fin 1) r.soldPortions

/-- The loop body after a successful fetch: the `executeSell` call it makes, if any. -/
def monitorDecide (cfg : Config) (now : ℤ) (r : Position) (tokenData : TokenData) :
    Option SellCall :=
  if JSNum.gt (hoursElapsed now r.buyTime) (fin cfg.maxHoldTime) then
    some { portion := JSNum.sub (fin 1) r.soldPortions, reason := Reason.maxHoldTime }
  else if JSNum.ge tokenData.marketCap (fin cfg.marketCapTarget) then
    some { portion := JSNum.sub (fin 1) r.soldPortions, reason := Reason.marketCapTarget }
  else
    let priceRatio := JSNum.div tokenData.price r.buyPrice
    if JSNum.le priceRatio (fin cfg.stopLoss) then
      some { portion := JSNum.sub (fin 1) r.soldPortions, reason := Reason.stopLoss }
    else if JSNum.gt tokenData.volume
        (JSNum.mul r.initialVolume (fin cfg.volumeSpikeThreshold)) then
      some { portion := JSNum.sub (fin 1) r.soldPortions, reason := Reason.volumeSpike }
    else if JSNum.ge priceRatio (fin cfg.minProfit) && JSNum.strictEq r.soldPortions (fin 0) then
      some { portion := JSNum.sub (fin 1) r.soldPortions, reason := Reason.minProfit }
    else
      stagedDecision cfg r tokenData

/-- One iteration of the inner loop of the monitor for the record stored under
`(w, t)`: the ledger afterwards and the `executeSell` call made, if any.  A call
that throws leaves the ledger as it is. -/
def monitorStep (cfg : Config) (l : Ledger) (w t : String) (now : ℤ)
    (fetched : Option TokenData) (swapOk : Bool) : Ledger × Option SellCall :=
  match l w t with
  | none => (l, none)
  | some r =>
      match fetched with
      | none => (l, none)
      | some tokenData =>
          match monitorDecide cfg now r tokenData with
          | none => (l, none)
          | some call =>
              match executeSell cfg l w t call.portion swapOk with
              | .ok l' => (l', some call)
              | .error _ => (l, some call)


/-! ## The rule list of the specification -/

/-- The six exit rules in the order in which the specification lists them,
each with its condition and the sale it asks for. -/
def exitRules (cfg : Config) (now : ℤ) (r : Position) (tokenData : TokenData) :
    List (Bool × SellCall) :=
  [ (maxHoldCond cfg now r, { portion := remaining r, reason := Reason.maxHoldTime }),
    (marketCapCond cfg tokenData, { portion := remaining r, reason := Reason.marketCapTarget }),
    (stopLossCond cfg r tokenData, { portion := remaining r, reason := Reason.stopLoss }),
    (volumeSpikeCond cfg r tokenData, { portion := remaining r, reason := Reason.volumeSpike }),
    (minProfitCond cfg r tokenData, { portion := remaining r, reason := Reason.minProfit }),
    (stagedCond cfg r tokenData, { portion := stagedPortion cfg r, reason := Reason.priceTarget }) ]

/-- First match wins: the sale of the first rule whose condition holds. -/
def firstMatch (rules : List (Bool × SellCall)) : Option SellCall :=
  (rules.find? (fun rule => rule.1)).map (fun rule => rule.2)

/-! ## Reachable ledgers -/

/-- Ledgers reachable from the empty map by the `executeBuy` calls of the
message handler that return and by iterations of the monitor loop.  The handler
buys only after `validateToken` accepted the data of a first fetch, and passes
`amountPerWallet`; `executeBuy` fetches the data again.  The predicate `buyOk`
says which token data that second fetch may return. -/
inductive Reach (cfg : Config) (buyOk : TokenData → Prop) : Ledger → Prop where
  | empty : Reach cfg buyOk Ledger.empty
  | buy (l l' : Ledger) (w t : String) (now : ℤ) (swapOk : Bool)
      (validation fetched : Option TokenData) :
      Reach cfg buyOk l → (validateToken cfg validation).isSome = true →
      (∀ td, fetched = some td → buyOk td) →
      executeBuy cfg l w t (amountPerWallet cfg) now swapOk fetched = .ok l' →
      Reach cfg buyOk l'
  | monitor (l : Ledger) (w t : String) (now : ℤ) (fetched : Option TokenData)
      (swapOk : Bool) :
      Reach cfg buyOk l → Reach cfg buyOk (monitorStep cfg l w t now fetched swapOk).1

/-- Any token data may be fetched by a buy. -/
def anyData : TokenData → Prop := fun _ => True

/-- The token data fetched by a buy carry a finite price above zero. -/
def positivePrice : TokenData → Prop := fun td => ∃ p : ℚ, td.price = fin p ∧ 0 < p

/-- The ledger left by a sale whose swap went through. -/
def afterSale (l : Ledger) (w t : String) (r : Position) (portion : JSNum) : Ledger :=
  if JSNum.ge (soldPortionsWritten r portion) (fin 1) then l.delete w t
  else l.set w t { r with soldPortions := soldPortionsWritten r portion }

/-! ## Concrete data used in the evaluations -/

/-- Address of the wallet used in the evaluations. -/
def walletA : String := "0x00000000000000000000000000000000000000a1"

/-- Address of the token used in the evaluations. -/
def tokenA : String := "0x00000000000000000000000000000000000000b2"

/-- A fresh record: 0.0125 ETH bought at price 100 at time 0, volume 30000 at
entry. -/
def freshRecord : Position :=
  { amount := 0.0125, buyPrice := fin 100, buyTime := 0, soldPortions := fin 0,
    initialVolume := fin 30000 }

/-- The same position after a quarter of it has been sold. -/
def quarterSoldRecord : Position := { freshRecord with soldPortions := fin 0.25 }

/-- Token data with the given price, the entry volume 30000, liquidity 20000
(both accepted by `validateToken`) and a market cap of 5000, well under the
target. -/
def quietData (price : JSNum) : TokenData :=
  { price := price, volume := fin 30000, liquidity := fin 20000, marketCap := fin 5000 }

/-- Thirteen hours in milliseconds. -/
def thirteenHours : ℤ := 13 * 60 * 60 * 1000

/-- A record bought while the provider reported a price of 0. -/
def zeroRecord (soldPortions : JSNum) : Position :=
  { amount := 0.0125, buyPrice := fin 0, buyTime := 0, soldPortions := soldPortions,
    initialVolume := fin 30000 }

/-- The ledger holding one such record. -/
def zeroLedger (soldPortions : JSNum) : Ledger :=
  Ledger.empty.set walletA tokenA (zeroRecord soldPortions)

/-- The ledger after one buy at price 100. -/
def boughtOnce : Ledger := Ledger.empty.set walletA tokenA freshRecord

/-- The shipped configuration with equal sell fractions of a quarter. -/
def equalFractions : Config := { config with sellIntervals := [0.25, 0.25, 0.25, 0.25] }

/-- The shipped configuration with a minimum-profit ratio above the first target. -/
def highMinProfit : Config := { config with minProfit := 1.6 }

/-- The shipped configuration with a first price target below the stop-loss ratio. -/
def lowTarget : Config := { config with priceTargets := [0.5, 2.0, 3.0, 5.0] }

/-! ## Auxiliary facts -/

theorem strictEq_zero_iff (s : JSNum) : JSNum.strictEq s (fin 0) = true ↔ s = fin 0 := by
  cases s <;> simp [JSNum.strictEq]

theorem strictEq_zero_of_gt (s : JSNum) (h : JSNum.gt s (fin 0) = true) :
    JSNum.strictEq s (fin 0) = false := by
  cases s <;> simp_all [JSNum.strictEq, JSNum.gt, JSNum.lt]
  exact ne_of_gt h

theorem monitorStep_call (cfg : Config) (l : Ledger) (w t : String) (now : ℤ)
    (td : TokenData) (swapOk : Bool) (r : Position) (h : l w t = some r) :
    (monitorStep cfg l w t now (some td) swapOk).2 = monitorDecide cfg now r td := by
  simp only [monitorStep, h]
  cases monitorDecide cfg now r td with
  | none => rfl
  | some call =>
      dsimp only
      split <;> rfl

theorem monitorDecide_eq_firstMatch (cfg : Config) (now : ℤ) (r : Position) (td : TokenData) :
    monitorDecide cfg now r td = firstMatch (exitRules cfg now r td) := by
  unfold monitorDecide firstMatch exitRules
  simp only [maxHoldCond, marketCapCond, stopLossCond, volumeSpikeCond, minProfitCond,
    stagedCond, priceRatio, remaining, stagedDecision]
  cases (hoursElapsed now r.buyTime).gt (fin cfg.maxHoldTime) <;>
  cases td.marketCap.ge (fin cfg.marketCapTarget) <;>
  cases (td.price.div r.buyPrice).le (fin cfg.stopLoss) <;>
  cases td.volume.gt (r.initialVolume.mul (fin cfg.volumeSpikeThreshold)) <;>
  cases ((td.price.div r.buyPrice).ge (fin cfg.minProfit) && r.soldPortions.strictEq (fin 0)) <;>
  cases shouldSell td r.buyPrice (getPriceTarget cfg r.buyPrice r.soldPortions) <;>
  rfl

/-- Unfolding of the loop body in terms of the named conditions. -/
theorem monitorDecide_conds (cfg : Config) (now : ℤ) (r : Position) (td : TokenData) :
    monitorDecide cfg now r td =
      if maxHoldCond cfg now r then some ⟨remaining r, Reason.maxHoldTime⟩
      else if marketCapCond cfg td then some ⟨remaining r, Reason.marketCapTarget⟩
      else if stopLossCond cfg r td then some ⟨remaining r, Reason.stopLoss⟩
      else if volumeSpikeCond cfg r td then some ⟨remaining r, Reason.volumeSpike⟩
      else if minProfitCond cfg r td then some ⟨remaining r, Reason.minProfit⟩
      else stagedDecision cfg r td := by
  rfl

theorem stagedDecision_some (cfg : Config) (r : Position) (td : TokenData) (call : SellCall)
    (h : stagedDecision cfg r td = some call) :
    call = { portion := stagedPortion cfg r, reason := Reason.priceTarget } := by
  simp only [stagedDecision] at h
  split_ifs at h
  cases h
  rfl

theorem le_nan_right (a : JSNum) : JSNum.le a nan = false := by
  cases a <;> rfl

theorem div_nan_left (b : JSNum) : JSNum.div nan b = nan := by
  cases b <;> rfl

theorem executeSell_ok (cfg : Config) (hreal : cfg.mode = Mode.real) (l : Ledger)
    (w t : String) (portion : JSNum) (r : Position) (hl : l w t = some r) :
    executeSell cfg l w t portion true = .ok (afterSale l w t r portion) := by
  simp only [executeSell, hreal, hl, afterSale]
  split_ifs <;> simp_all

theorem executeSell_failed (cfg : Config) (hreal : cfg.mode = Mode.real) (l : Ledger)
    (w t : String) (portion : JSNum) (r : Position) (hl : l w t = some r) :
    executeSell cfg l w t portion false = .error Failure.swapFailed := by
  simp [executeSell, hreal, hl]

theorem monitorStep_sale (cfg : Config) (hreal : cfg.mode = Mode.real) (l : Ledger)
    (w t : String) (now : ℤ) (td : TokenData) (r : Position) (call : SellCall)
    (hl : l w t = some r) (hd : monitorDecide cfg now r td = some call) :
    monitorStep cfg l w t now (some td) true = (afterSale l w t r call.portion, some call) := by
  simp only [monitorStep, hl, hd, executeSell_ok cfg hreal l w t call.portion r hl]

theorem monitorStep_sale_failed (cfg : Config) (hreal : cfg.mode = Mode.real) (l : Ledger)
    (w t : String) (now : ℤ) (td : TokenData) (r : Position) (call : SellCall)
    (hl : l w t = some r) (hd : monitorDecide cfg now r td = some call) :
    monitorStep cfg l w t now (some td) false = (l, some call) := by
  simp only [monitorStep, hl, hd, executeSell_failed cfg hreal l w t call.portion r hl]

theorem monitorStep_idle (cfg : Config) (l : Ledger) (w t : String) (now : ℤ)
    (td : TokenData) (swapOk : Bool) (r : Position)
    (hl : l w t = some r) (hd : monitorDecide cfg now r td = none) :
    monitorStep cfg l w t now (some td) swapOk = (l, none) := by
  simp only [monitorStep, hl, hd]

theorem set_same (l : Ledger) (w t : String) (r : Position) : (l.set w t r) w t = some r := by
  simp [Ledger.set]

theorem delete_same (l : Ledger) (w t : String) : (l.delete w t) w t = none := by
  simp [Ledger.delete]

theorem index_intCast (xs : List ℚ) (k : ℤ) (hk : 0 ≤ k) :
    JSNum.index xs (fin (k : ℚ)) = xs[k.toNat]? := by
  simp [JSNum.index, hk]

theorem intervalIndex_fin (q : ℚ) :
    intervalIndex (fin q) = fin ((⌊q / 0.25⌋ : ℤ) : ℚ) := by
  have h : (0.25 : ℚ) ≠ 0 := by norm_num
  simp only [intervalIndex, JSNum.div, h, if_false, JSNum.floor]

theorem floor_quarter_nonneg (q : ℚ) (hq : 0 ≤ q) : 0 ≤ ⌊q / 0.25⌋ :=
  Int.floor_nonneg.2 (div_nonneg hq (by norm_num))

theorem orElse_clamp (xs : List ℚ) (hnz : ∀ m ∈ xs, m ≠ 0) (i : ℕ) :
    orElse xs[i]? xs[xs.length - 1]? = xs[min i (xs.length - 1)]? := by
  by_cases hi : i < xs.length
  · have hmin : min i (xs.length - 1) = i := by omega
    rw [hmin, List.getElem?_eq_getElem hi]
    have : xs[i] ≠ 0 := hnz _ (List.getElem_mem hi)
    simp [orElse, this]
  · have hmin : min i (xs.length - 1) = xs.length - 1 := by omega
    rw [hmin, List.getElem?_eq_none (by omega)]
    rfl

/-! ## Sales and the ledger -/

theorem set_set (l : Ledger) (w t : String) (a b : Position) :
    (l.set w t a).set w t b = l.set w t b := by
  funext w' t'
  simp only [Ledger.set]
  split_ifs <;> rfl

theorem remaining_fin (r : Position) (q : ℚ) (hs : r.soldPortions = fin q) :
    remaining r = fin (1 - q) := by
  simp only [remaining, hs, JSNum.sub, JSNum.neg, JSNum.add]
  rw [sub_eq_add_neg]

theorem monitorDecide_portion (cfg : Config) (now : ℤ) (r : Position) (td : TokenData)
    (call : SellCall) (h : monitorDecide cfg now r td = some call) :
    call.portion = remaining r ∨ call.portion = stagedPortion cfg r := by
  rw [monitorDecide_conds] at h
  split_ifs at h
  · cases h; exact Or.inl rfl
  · cases h; exact Or.inl rfl
  · cases h; exact Or.inl rfl
  · cases h; exact Or.inl rfl
  · cases h; exact Or.inl rfl
  · rw [stagedDecision_some cfg r td call h]
    exact Or.inr rfl

theorem monitorStep_ledger (cfg : Config) (l : Ledger) (w t : String) (now : ℤ)
    (fetched : Option TokenData) (swapOk : Bool) :
    (monitorStep cfg l w t now fetched swapOk).1 = l ∨
    ∃ r td call, l w t = some r ∧ fetched = some td ∧
      monitorDecide cfg now r td = some call ∧ cfg.mode = Mode.real ∧
      (monitorStep cfg l w t now fetched swapOk).1 = afterSale l w t r call.portion := by
  cases hl : l w t with
  | none => left; simp only [monitorStep, hl]
  | some r =>
    cases fetched with
    | none => left; simp only [monitorStep, hl]
    | some td =>
      cases hd : monitorDecide cfg now r td with
      | none => left; rw [monitorStep_idle cfg l w t now td swapOk r hl hd]
      | some call =>
        cases hm : cfg.mode with
        | simulated => left; simp [monitorStep, hl, hd, executeSell, hm]
        | real =>
          cases swapOk with
          | false => left; rw [monitorStep_sale_failed cfg hm l w t now td r call hl hd]
          | true =>
            right
            exact ⟨r, td, call, rfl, rfl, hd, rfl,
              by rw [monitorStep_sale cfg hm l w t now td r call hl hd]⟩

theorem afterSale_records (l : Ledger) (w t : String) (r : Position) (portion : JSNum)
    (w' t' : String) (r' : Position) (h : afterSale l w t r portion w' t' = some r') :
    l w' t' = some r' ∨
    (r' = { r with soldPortions := soldPortionsWritten r portion } ∧
      JSNum.ge (soldPortionsWritten r portion) (fin 1) = false) := by
  unfold afterSale at h
  split_ifs at h with hge
  · left
    simp only [Ledger.delete] at h
    split_ifs at h
    exact h
  · simp only [Ledger.set] at h
    split_ifs at h
    · right
      cases h
      exact ⟨rfl, by simpa using hge⟩
    · left
      exact h

theorem executeBuy_ledger (cfg : Config) (l l' : Ledger) (w t : String) (amountEth : ℚ)
    (now : ℤ) (swapOk : Bool) (fetched : Option TokenData)
    (h : executeBuy cfg l w t amountEth now swapOk fetched = .ok l') :
    l' = l ∨ ∃ td, fetched = some td ∧
      l' = l.set w t (Position.mk amountEth td.price now (fin 0) td.volume) := by
  unfold executeBuy at h
  split_ifs at h
  · left; cases h; rfl
  · cases fetched with
    | none => cases h
    | some td => right; cases h; exact ⟨td, rfl, rfl⟩

/-- A property of records that fresh records have and staged sales keep holds
of every record of every reachable ledger. -/
theorem reach_records (cfg : Config) (buyOk : TokenData → Prop) (P : Position → Prop)
    (hbuy : ∀ (amountEth : ℚ) (now : ℤ) (td : TokenData), buyOk td →
      P (Position.mk amountEth td.price now (fin 0) td.volume))
    (hsale : ∀ (now : ℤ) (r : Position) (td : TokenData) (call : SellCall), P r →
      monitorDecide cfg now r td = some call →
      JSNum.ge (soldPortionsWritten r call.portion) (fin 1) = false →
      P { r with soldPortions := soldPortionsWritten r call.portion })
    (l : Ledger) (hl : Reach cfg buyOk l) :
    ∀ w t r, l w t = some r → P r := by
  induction hl with
  | empty => intro w t r h; cases h
  | buy l l' w t now swapOk validation fetched _ _ hok hex ih =>
    intro w' t' r' h
    rcases executeBuy_ledger cfg l l' w t _ now swapOk fetched hex with he | ⟨td, hf, he⟩
    · rw [he] at h; exact ih w' t' r' h
    · rw [he] at h
      simp only [Ledger.set] at h
      split_ifs at h
      · cases h; exact hbuy _ now td (hok td hf)
      · exact ih w' t' r' h
  | monitor l w t now fetched swapOk _ ih =>
    intro w' t' r' h
    rcases monitorStep_ledger cfg l w t now fetched swapOk with he | ⟨r, td, call, hr, _, hd, _, he⟩
    · rw [he] at h; exact ih w' t' r' h
    · rw [he] at h
      rcases afterSale_records l w t r call.portion w' t' r' h with h' | ⟨h', hge⟩
      · exact ih w' t' r' h'
      · rw [h']; exact hsale now r td call (ih w t r hr) hd hge

/-! ## The shipped configuration -/

theorem floor_quarter_lt_four (q : ℚ) (h1 : q < 1) : ⌊q / 0.25⌋ < 4 := by
  rw [Int.floor_lt]
  have : q / 0.25 = 4 * q := by norm_num [div_eq_mul_inv]; ring
  rw [this]
  push_cast
  linarith

theorem config_targets_nonzero : ∀ m ∈ config.priceTargets, m ≠ 0 := by
  intro m hm
  simp only [config, List.mem_cons, List.mem_singleton, List.not_mem_nil, or_false] at hm
  rcases hm with h | h | h | h <;> rw [h] <;> norm_num

theorem stagedPortion_shipped (r : Position) (q : ℚ) (hs : r.soldPortions = fin q)
    (h0 : 0 ≤ q) (h1 : q < 1) : ∃ p : ℚ, stagedPortion config r = fin p ∧ 0 < p := by
  have hk0 := floor_quarter_nonneg q h0
  have hk4 := floor_quarter_lt_four q h1
  simp only [stagedPortion, hs, intervalIndex_fin, index_intCast _ _ hk0]
  generalize ⌊q / 0.25⌋ = k at hk0 hk4
  interval_cases k
  · exact ⟨0.25, by norm_num [config, JSNum.ofElem, Int.toNat], by norm_num⟩
  · exact ⟨0.5, by norm_num [config, JSNum.ofElem, Int.toNat], by norm_num⟩
  · exact ⟨0.75, by norm_num [config, JSNum.ofElem, Int.toNat], by norm_num⟩
  · exact ⟨1.0, by norm_num [config, JSNum.ofElem, Int.toNat], by norm_num⟩

/-- Under the shipped configuration every stored `soldPortions` is a finite
number in `[0, 1)`, whatever the provider reports at buy time. -/
theorem reach_in_range (l : Ledger) (hl : Reach config anyData l) :
    ∀ w t r, l w t = some r → ∃ q : ℚ, r.soldPortions = fin q ∧ 0 ≤ q ∧ q < 1 := by
  apply reach_records config anyData
    (fun r => ∃ q : ℚ, r.soldPortions = fin q ∧ 0 ≤ q ∧ q < 1) _ _ l hl
  · intro amountEth now td _
    exact ⟨0, rfl, le_rfl, by norm_num⟩
  · intro now r td call ⟨q, hs, h0, h1⟩ hd hge
    rcases monitorDecide_portion config now r td call hd with hp | hp
    · rw [hp, remaining_fin r q hs] at hge
      simp [soldPortionsWritten, hs, JSNum.add, JSNum.ge, JSNum.le] at hge
    · obtain ⟨p, hp', hpos⟩ := stagedPortion_shipped r q hs h0 h1
      rw [hp, hp'] at hge ⊢
      simp only [soldPortionsWritten, hs, JSNum.add, JSNum.ge, JSNum.le,
        decide_eq_false_iff_not, not_le] at hge ⊢
      exact ⟨q + p, rfl, by linarith, hge⟩

/-- A record with nothing sold and a positive finite buy price is only ever
sold in full under the shipped configuration. -/
theorem full_exit_only (now : ℤ) (r : Position) (td : TokenData) (b : ℚ)
    (hb : r.buyPrice = fin b) (hpos : 0 < b) (hs : r.soldPortions = fin 0)
    (call : SellCall) (h : monitorDecide config now r td = some call) :
    call.portion = fin 1 ∧ call.reason ≠ Reason.priceTarget := by
  have hrem : remaining r = fin 1 := by
    rw [remaining_fin r 0 hs]; norm_num
  rw [monitorDecide_conds] at h
  split_ifs at h with h1 h2 h3 h4 h5
  · cases h; exact ⟨hrem, by simp⟩
  · cases h; exact ⟨hrem, by simp⟩
  · cases h; exact ⟨hrem, by simp⟩
  · cases h; exact ⟨hrem, by simp⟩
  · cases h; exact ⟨hrem, by simp⟩
  · exfalso
    have hb0 : b ≠ 0 := ne_of_gt hpos
    have hidx : intervalIndex (fin 0) = fin 0 := by
      rw [intervalIndex_fin]; norm_num
    have htarget : getPriceTarget config r.buyPrice r.soldPortions = fin (b * 1.5) := by
      norm_num [getPriceTarget, hb, hs, hidx, config, orElse, JSNum.index, JSNum.ofElem,
        JSNum.mul]
    simp only [stagedDecision, htarget, shouldSell] at h
    split_ifs at h with hge
    cases hprice : td.price with
    | nan => simp [hprice, JSNum.ge, le_nan_right] at hge
    | posInf =>
      apply h5
      simp [minProfitCond, priceRatio, hprice, hb, hs, JSNum.div, JSNum.signedInf,
        le_of_lt hpos, JSNum.ge, JSNum.le, JSNum.strictEq]
    | negInf =>
      simp [hprice, JSNum.ge, JSNum.le] at hge
    | fin p =>
      apply h5
      simp only [hprice, JSNum.ge, JSNum.le, decide_eq_true_eq] at hge
      have hratio : (1.2 : ℚ) ≤ p / b := by
        rw [le_div_iff₀ hpos]
        have : (1.2 : ℚ) * b ≤ b * 1.5 := by norm_num; nlinarith
        linarith
      simp [minProfitCond, priceRatio, hprice, hb, hs, JSNum.div, hb0, JSNum.ge, JSNum.le,
        JSNum.strictEq, config, hratio]

/-- Ledgers built from buys at a positive price hold only untouched records. -/
theorem reach_untouched (l : Ledger) (hl : Reach config positivePrice l) :
    ∀ w t r, l w t = some r →
      r.soldPortions = fin 0 ∧ ∃ b : ℚ, r.buyPrice = fin b ∧ 0 < b := by
  apply reach_records config positivePrice
    (fun r => r.soldPortions = fin 0 ∧ ∃ b : ℚ, r.buyPrice = fin b ∧ 0 < b) _ _ l hl
  · intro amountEth now td hok
    exact ⟨rfl, hok⟩
  · intro now r td call ⟨hs, b, hb, hpos⟩ hd hge
    have hp := (full_exit_only now r td b hb hpos hs call hd).1
    rw [hp] at hge
    norm_num [soldPortionsWritten, hs, JSNum.add, JSNum.ge, JSNum.le] at hge

/-! ## The run that starts with a buy at price 0 -/

theorem zero_decision_first :
    monitorDecide config 0 (zeroRecord (fin 0)) (quietData (fin 0))
      = some { portion := fin 0.25, reason := Reason.priceTarget } := by
  have hidx : intervalIndex (fin 0) = fin 0 := by
    rw [intervalIndex_fin]; norm_num
  simp only [monitorDecide, stagedDecision, stagedPortion, getPriceTarget, zeroRecord, hidx]
  norm_num [shouldSell, orElse, JSNum.index, JSNum.ofElem, hoursElapsed, quietData, config,
    JSNum.gt, JSNum.lt, JSNum.ge, JSNum.le, JSNum.div, JSNum.mul, JSNum.strictEq, Int.toNat]

theorem zero_decision_second :
    monitorDecide config 0 (zeroRecord (fin 0.25)) (quietData (fin 0))
      = some { portion := fin 0.5, reason := Reason.priceTarget } := by
  have hidx : intervalIndex (fin 0.25) = fin 1 := by
    rw [intervalIndex_fin]; norm_num
  simp only [monitorDecide, stagedDecision, stagedPortion, getPriceTarget, zeroRecord, hidx]
  norm_num [shouldSell, orElse, JSNum.index, JSNum.ofElem, hoursElapsed, quietData, config,
    JSNum.gt, JSNum.lt, JSNum.ge, JSNum.le, JSNum.div, JSNum.mul, JSNum.strictEq, Int.toNat]

theorem zero_decision_third :
    monitorDecide config 0 (zeroRecord (fin 0.75)) (quietData (fin 0))
      = some { portion := fin 1, reason := Reason.priceTarget } := by
  have hidx : intervalIndex (fin 0.75) = fin 3 := by
    rw [intervalIndex_fin]; norm_num
  simp only [monitorDecide, stagedDecision, stagedPortion, getPriceTarget, zeroRecord, hidx]
  norm_num [shouldSell, orElse, JSNum.index, JSNum.ofElem, hoursElapsed, quietData, config,
    JSNum.gt, JSNum.lt, JSNum.ge, JSNum.le, JSNum.div, JSNum.mul, JSNum.strictEq, Int.toNat]

theorem zeroLedger_lookup (s : JSNum) :
    zeroLedger s walletA tokenA = some (zeroRecord s) :=
  set_same _ _ _ _

theorem amountPerWallet_shipped : amountPerWallet config = 0.0125 := by
  norm_num [amountPerWallet, config]

theorem validateToken_quiet (price : JSNum) :
    (validateToken config (some (quietData price))).isSome = true := by
  norm_num [validateToken, quietData, config, JSNum.lt, JSNum.mul, JSNum.div]

theorem reach_zero_bought : Reach config anyData (zeroLedger (fin 0)) :=
  Reach.buy Ledger.empty (zeroLedger (fin 0)) walletA tokenA 0 true
    (some (quietData (fin 0))) (some (quietData (fin 0))) Reach.empty
    (validateToken_quiet _) (fun _ _ => trivial)
    (by
      rw [amountPerWallet_shipped]
      simp [executeBuy, config, zeroLedger, zeroRecord, quietData])

theorem reach_zero_quarter : Reach config anyData (zeroLedger (fin 0.25)) := by
  have h := Reach.monitor (zeroLedger (fin 0)) walletA tokenA 0
    (some (quietData (fin 0))) true reach_zero_bought
  rw [monitorStep_sale config rfl _ walletA tokenA 0 _ (zeroRecord (fin 0)) _
    (zeroLedger_lookup _) zero_decision_first] at h
  have he : afterSale (zeroLedger (fin 0)) walletA tokenA (zeroRecord (fin 0)) (fin 0.25)
      = zeroLedger (fin 0.25) := by
    norm_num [afterSale, soldPortionsWritten, zeroRecord, zeroLedger, JSNum.add, JSNum.ge,
      JSNum.le, set_set]
  rw [← he]
  exact h

theorem reach_zero_three_quarters : Reach config anyData (zeroLedger (fin 0.75)) := by
  have h := Reach.monitor (zeroLedger (fin 0.25)) walletA tokenA 0
    (some (quietData (fin 0))) true reach_zero_quarter
  rw [monitorStep_sale config rfl _ walletA tokenA 0 _ (zeroRecord (fin 0.25)) _
    (zeroLedger_lookup _) zero_decision_second] at h
  have he : afterSale (zeroLedger (fin 0.25)) walletA tokenA (zeroRecord (fin 0.25))
      (fin 0.5) = zeroLedger (fin 0.75) := by
    norm_num [afterSale, soldPortionsWritten, zeroRecord, zeroLedger, JSNum.add, JSNum.ge,
      JSNum.le, set_set]
  rw [← he]
  exact h

theorem reach_weaken (cfg : Config) (buyOk buyOk' : TokenData → Prop)
    (himp : ∀ td, buyOk td → buyOk' td) (l : Ledger) (hl : Reach cfg buyOk l) :
    Reach cfg buyOk' l := by
  induction hl with
  | empty => exact Reach.empty
  | buy l l' w t now swapOk validation fetched _ hvalid hok hex ih =>
    exact Reach.buy l l' w t now swapOk validation fetched ih hvalid
      (fun td h => himp td (hok td h)) hex
  | monitor l w t now fetched swapOk _ ih =>
    exact Reach.monitor l w t now fetched swapOk ih

theorem reach_bought_once : Reach config positivePrice boughtOnce :=
  Reach.buy Ledger.empty boughtOnce walletA tokenA 0 true
    (some (quietData (fin 100))) (some (quietData (fin 100))) Reach.empty
    (validateToken_quiet _)
    (fun td h => by cases h; exact ⟨100, rfl, by norm_num⟩)
    (by
      rw [amountPerWallet_shipped]
      simp [executeBuy, config, boughtOnce, freshRecord, quietData])

/-! ## The exit rules -/

/-- C8: when `getTokenData` returns null the iteration for that record makes no
`executeSell` call and returns the very same ledger, whatever the record, the
clock and the configuration. -/
theorem fetch_failure_no_effect (cfg : Config) (l : Ledger) (w t : String) (now : ℤ)
    (swapOk : Bool) :
    monitorStep cfg l w t now none swapOk = (l, none) := by
  unfold monitorStep
  cases l w t <;> rfl

/-- C1: the loop body is the first-match-wins evaluation of the rule list
max-hold-time, market-cap target, stop-loss, volume spike, minimum profit,
staged targets, and so is the call made by one monitor iteration on a stored
record.  A position past the maximum hold time whose price ratio is 0.5 meets
the stop-loss condition as well and is sold in full for max-hold-time.  When the
stop-loss and the staged-target conditions both hold the remaining balance is
sold, never a staged portion, and the reason is stop-loss unless one of the two
rules ahead of it holds. -/
theorem monitor_first_match_wins :
    (∀ (cfg : Config) (now : ℤ) (r : Position) (td : TokenData),
        monitorDecide cfg now r td = firstMatch (exitRules cfg now r td)) ∧
    (∀ (cfg : Config) (l : Ledger) (w t : String) (now : ℤ) (td : TokenData)
        (swapOk : Bool) (r : Position), l w t = some r →
        (monitorStep cfg l w t now (some td) swapOk).2
          = firstMatch (exitRules cfg now r td)) ∧
    (∀ (now : ℤ) (r : Position) (td : TokenData),
        maxHoldCond config now r = true → priceRatio r td = fin 0.5 →
        stopLossCond config r td = true ∧
        monitorDecide config now r td
          = some { portion := remaining r, reason := Reason.maxHoldTime }) ∧
    (∀ (cfg : Config) (now : ℤ) (r : Position) (td : TokenData),
        stopLossCond cfg r td = true → stagedCond cfg r td = true →
        (∃ reason, reason ≠ Reason.priceTarget ∧
          monitorDecide cfg now r td = some { portion := remaining r, reason := reason }) ∧
        (maxHoldCond cfg now r = false → marketCapCond cfg td = false →
          monitorDecide cfg now r td
            = some { portion := remaining r, reason := Reason.stopLoss })) := by
  refine ⟨monitorDecide_eq_firstMatch, ?_, ?_, ?_⟩
  · intro cfg l w t now td swapOk r h
    rw [monitorStep_call cfg l w t now td swapOk r h, monitorDecide_eq_firstMatch]
  · intro now r td hhold hratio
    refine ⟨?_, ?_⟩
    · simp only [stopLossCond, hratio, JSNum.le, config]
      norm_num
    · rw [monitorDecide_conds, hhold]
      rfl
  · intro cfg now r td hstop _
    rw [monitorDecide_conds, hstop]
    refine ⟨?_, ?_⟩
    · cases maxHoldCond cfg now r <;> cases marketCapCond cfg td <;> simp
    · intro h1 h2
      simp [h1, h2]

/-- Witness C1: thirteen hours after the buy at 100 a price of 50 gives ratio
0.5 and a sale of the whole position for max-hold-time; with a first target of
0.5 a price of 60 meets stop-loss and the staged target and is sold for
stop-loss. -/
theorem monitor_first_match_wins_witness :
    (maxHoldCond config thirteenHours freshRecord = true ∧
      priceRatio freshRecord (quietData (fin 50)) = fin 0.5 ∧
      monitorDecide config thirteenHours freshRecord (quietData (fin 50))
        = some { portion := remaining freshRecord, reason := Reason.maxHoldTime }) ∧
    (stopLossCond lowTarget freshRecord (quietData (fin 60)) = true ∧
      stagedCond lowTarget freshRecord (quietData (fin 60)) = true ∧
      monitorDecide lowTarget 0 freshRecord (quietData (fin 60))
        = some { portion := remaining freshRecord, reason := Reason.stopLoss }) := by
  have hhold : maxHoldCond config thirteenHours freshRecord = true := by
    simp [maxHoldCond, hoursElapsed, thirteenHours, freshRecord, config, JSNum.gt, JSNum.lt]
    norm_num
  have hratio : priceRatio freshRecord (quietData (fin 50)) = fin 0.5 := by
    simp [priceRatio, freshRecord, quietData, JSNum.div]
    norm_num
  have hstop : stopLossCond lowTarget freshRecord (quietData (fin 60)) = true := by
    simp [stopLossCond, priceRatio, freshRecord, quietData, JSNum.div, JSNum.le, lowTarget,
      config]
    norm_num
  have hstaged : stagedCond lowTarget freshRecord (quietData (fin 60)) = true := by
    simp [stagedCond, shouldSell, getPriceTarget, intervalIndex, orElse, JSNum.index,
      JSNum.ofElem, JSNum.floor, freshRecord, quietData, JSNum.div, JSNum.mul, JSNum.ge,
      JSNum.le, lowTarget, config]
    norm_num
  have hnohold : maxHoldCond lowTarget 0 freshRecord = false := by
    simp [maxHoldCond, hoursElapsed, freshRecord, lowTarget, config, JSNum.gt, JSNum.lt]
  have hnocap : marketCapCond lowTarget (quietData (fin 60)) = false := by
    simp [marketCapCond, quietData, lowTarget, config, JSNum.ge, JSNum.le]
    norm_num
  exact ⟨⟨hhold, hratio,
      (monitor_first_match_wins.2.2.1 thirteenHours freshRecord (quietData (fin 50))
        hhold hratio).2⟩,
    hstop, hstaged,
      (monitor_first_match_wins.2.2.2 lowTarget 0 freshRecord (quietData (fin 60))
        hstop hstaged).2 hnohold hnocap⟩

/-- The guard of the minimum-profit branch: a sale for minimum profit is only
ever made on a record whose `soldPortions` is exactly 0; when `soldPortions > 0`,
the price ratio has reached `minProfit` and none of max-hold, market-cap,
stop-loss, volume-spike holds, the loop body does exactly what the staged-target
block decides, whose portion is `sellIntervals[floor(soldPortions / 0.25)]`. -/
theorem min_profit_guard :
    (∀ (cfg : Config) (now : ℤ) (r : Position) (td : TokenData) (call : SellCall),
        monitorDecide cfg now r td = some call → call.reason = Reason.minProfit →
        r.soldPortions = fin 0) ∧
    (∀ (cfg : Config) (now : ℤ) (r : Position) (td : TokenData),
        JSNum.gt r.soldPortions (fin 0) = true →
        JSNum.ge (priceRatio r td) (fin cfg.minProfit) = true →
        maxHoldCond cfg now r = false → marketCapCond cfg td = false →
        stopLossCond cfg r td = false → volumeSpikeCond cfg r td = false →
        monitorDecide cfg now r td = stagedDecision cfg r td ∧
        ∀ call, monitorDecide cfg now r td = some call →
          call.reason = Reason.priceTarget ∧ call.portion = stagedPortion cfg r) := by
  refine ⟨?_, ?_⟩
  · intro cfg now r td call hcall hreason
    rw [monitorDecide_conds] at hcall
    split_ifs at hcall with h1 h2 h3 h4 h5
    · cases hcall; cases hreason
    · cases hcall; cases hreason
    · cases hcall; cases hreason
    · cases hcall; cases hreason
    · simp only [minProfitCond, Bool.and_eq_true] at h5
      exact (strictEq_zero_iff _).1 h5.2
    · rw [stagedDecision_some cfg r td call hcall] at hreason
      cases hreason
  · intro cfg now r td hsold _ h1 h2 h3 h4
    have h5 : minProfitCond cfg r td = false := by
      simp [minProfitCond, strictEq_zero_of_gt _ hsold]
    have heq : monitorDecide cfg now r td = stagedDecision cfg r td := by
      rw [monitorDecide_conds, h1, h2, h3, h4, h5]
      rfl
    refine ⟨heq, ?_⟩
    intro call hcall
    rw [heq] at hcall
    rw [stagedDecision_some cfg r td call hcall]
    exact ⟨rfl, rfl⟩

/-- C6 (defect): shipped configuration, the reachable record with buy price 0
and `soldPortions = 0.75`, price 5.  `soldPortions > 0`, the price ratio
(`5 / 0`, infinite) is above `minProfit` and none of max-hold, market-cap,
stop-loss, volume-spike holds, yet the monitor iteration calls `executeSell`
with portion 1, the whole original position where 0.25 of it remains, and the
record leaves the ledger. -/
theorem staged_sale_closes_position :
    Reach config anyData (zeroLedger (fin 0.75)) ∧
    zeroLedger (fin 0.75) walletA tokenA = some (zeroRecord (fin 0.75)) ∧
    JSNum.gt (zeroRecord (fin 0.75)).soldPortions (fin 0) = true ∧
    JSNum.ge (priceRatio (zeroRecord (fin 0.75)) (quietData (fin 5))) (fin config.minProfit)
      = true ∧
    maxHoldCond config 0 (zeroRecord (fin 0.75)) = false ∧
    marketCapCond config (quietData (fin 5)) = false ∧
    stopLossCond config (zeroRecord (fin 0.75)) (quietData (fin 5)) = false ∧
    volumeSpikeCond config (zeroRecord (fin 0.75)) (quietData (fin 5)) = false ∧
    remaining (zeroRecord (fin 0.75)) = fin 0.25 ∧
    monitorStep config (zeroLedger (fin 0.75)) walletA tokenA 0 (some (quietData (fin 5))) true
      = ((zeroLedger (fin 0.75)).delete walletA tokenA,
          some { portion := fin 1, reason := Reason.priceTarget }) := by
  have hidx : intervalIndex (fin 0.75) = fin 3 := by
    rw [intervalIndex_fin]; norm_num
  have hd : monitorDecide config 0 (zeroRecord (fin 0.75)) (quietData (fin 5))
      = some { portion := fin 1, reason := Reason.priceTarget } := by
    simp only [monitorDecide, stagedDecision, stagedPortion, getPriceTarget, zeroRecord, hidx]
    norm_num [shouldSell, orElse, JSNum.index, JSNum.ofElem, hoursElapsed, quietData, config,
      JSNum.gt, JSNum.lt, JSNum.ge, JSNum.le, JSNum.div, JSNum.mul, JSNum.strictEq,
      JSNum.signedInf, Int.toNat]
  refine ⟨reach_zero_three_quarters, zeroLedger_lookup _, ?_, ?_, ?_, ?_, ?_, ?_, ?_, ?_⟩
  · norm_num [zeroRecord, JSNum.gt, JSNum.lt]
  · norm_num [priceRatio, zeroRecord, quietData, JSNum.div, JSNum.signedInf, JSNum.ge,
      JSNum.le, config]
  · norm_num [maxHoldCond, hoursElapsed, zeroRecord, config, JSNum.gt, JSNum.lt]
  · norm_num [marketCapCond, quietData, config, JSNum.ge, JSNum.le]
  · norm_num [stopLossCond, priceRatio, zeroRecord, quietData, JSNum.div, JSNum.signedInf,
      JSNum.le, config]
  · norm_num [volumeSpikeCond, zeroRecord, quietData, JSNum.mul, JSNum.gt, JSNum.lt, config]
  · norm_num [remaining, zeroRecord, JSNum.sub, JSNum.add, JSNum.neg]
  · rw [monitorStep_sale config rfl _ walletA tokenA 0 _ (zeroRecord (fin 0.75)) _
      (zeroLedger_lookup _) hd]
    norm_num [afterSale, soldPortionsWritten, zeroRecord, JSNum.add, JSNum.ge, JSNum.le]

/-- Counterexample C2: under the shipped configuration a record bought at 100
with nothing sold and a price of 150, with none of max-hold, market-cap,
stop-loss, volume-spike holding, is sold in full for minimum profit; no sale of
a quarter is made. -/
theorem first_target_full_exit_shipped :
    maxHoldCond config 0 freshRecord = false ∧
    marketCapCond config (quietData (fin 150)) = false ∧
    stopLossCond config freshRecord (quietData (fin 150)) = false ∧
    volumeSpikeCond config freshRecord (quietData (fin 150)) = false ∧
    monitorDecide config 0 freshRecord (quietData (fin 150))
      = some { portion := fin 1, reason := Reason.minProfit } ∧
    monitorDecide config 0 freshRecord (quietData (fin 150))
      ≠ some { portion := fin 0.25, reason := Reason.priceTarget } := by
  have h : monitorDecide config 0 freshRecord (quietData (fin 150))
      = some { portion := fin 1, reason := Reason.minProfit } := by
    norm_num [monitorDecide, hoursElapsed, freshRecord, quietData, config, JSNum.gt, JSNum.lt,
      JSNum.ge, JSNum.le, JSNum.div, JSNum.mul, JSNum.sub, JSNum.add, JSNum.neg,
      JSNum.strictEq]
  refine ⟨?_, ?_, ?_, ?_, h, ?_⟩
  · norm_num [maxHoldCond, hoursElapsed, freshRecord, config, JSNum.gt, JSNum.lt]
  · norm_num [marketCapCond, quietData, config, JSNum.ge, JSNum.le]
  · norm_num [stopLossCond, priceRatio, freshRecord, quietData, JSNum.div, JSNum.le, config]
  · norm_num [volumeSpikeCond, freshRecord, quietData, JSNum.mul, JSNum.gt, JSNum.lt, config]
  · rw [h]
    simp

/-- C2 (amended): with price targets `[1.5, 2.0, 3.0, 5.0]`, a first sell
fraction of 0.25, buy price 100, nothing sold and a price of 150, when none of
max-hold, market-cap, stop-loss, volume-spike holds, the loop body sells the
whole position for minimum profit as soon as `minProfit <= 1.5` (the shipped
value is 1.2); it sells the staged quarter only when `minProfit > 1.5`. -/
theorem first_target_at_150 (cfg : Config) (now : ℤ) (r : Position) (td : TokenData)
    (htargets : cfg.priceTargets = [1.5, 2.0, 3.0, 5.0])
    (hfraction : cfg.sellIntervals[0]? = some (0.25 : ℚ))
    (hbuy : r.buyPrice = fin 100) (hsold : r.soldPortions = fin 0)
    (hprice : td.price = fin 150)
    (hhold : maxHoldCond cfg now r = false) (hcap : marketCapCond cfg td = false)
    (hstop : stopLossCond cfg r td = false) (hvol : volumeSpikeCond cfg r td = false) :
    monitorDecide cfg now r td =
      if cfg.minProfit ≤ 1.5 then some { portion := fin 1, reason := Reason.minProfit }
      else some { portion := fin 0.25, reason := Reason.priceTarget } := by
  rw [monitorDecide_conds, hhold, hcap, hstop, hvol]
  have hratio : priceRatio r td = fin 1.5 := by
    norm_num [priceRatio, hbuy, hprice, JSNum.div]
  have hrem : remaining r = fin 1 := by
    norm_num [remaining, hsold, JSNum.sub, JSNum.add, JSNum.neg]
  have hidx : intervalIndex r.soldPortions = fin 0 := by
    norm_num [intervalIndex, hsold, JSNum.div, JSNum.floor]
  have hstaged : stagedDecision cfg r td
      = some { portion := fin 0.25, reason := Reason.priceTarget } := by
    have hport : stagedPortion cfg r = fin 0.25 := by
      simp [stagedPortion, hidx, JSNum.index, hfraction, JSNum.ofElem]
    have htarget : getPriceTarget cfg r.buyPrice r.soldPortions = fin 150 := by
      norm_num [getPriceTarget, hidx, htargets, hbuy, orElse, JSNum.index, JSNum.ofElem,
        JSNum.mul]
    simp [stagedDecision, shouldSell, hport, htarget, hprice, JSNum.ge, JSNum.le]
  by_cases hmin : cfg.minProfit ≤ 1.5
  · have : minProfitCond cfg r td = true := by
      simp [minProfitCond, hratio, hsold, JSNum.ge, JSNum.le, JSNum.strictEq, hmin]
    simp [this, hmin, hrem]
  · have : minProfitCond cfg r td = false := by
      simp [minProfitCond, hratio, hsold, JSNum.ge, JSNum.le, JSNum.strictEq, hmin]
    simp [this, hmin, hstaged]

/-- Witness C2 (amended): the shipped configuration at record 100 / price 150
sells everything; the same configuration with `minProfit` 1.6 sells a quarter. -/
theorem first_target_at_150_witness :
    monitorDecide config 0 freshRecord (quietData (fin 150))
      = some { portion := fin 1, reason := Reason.minProfit } ∧
    monitorDecide highMinProfit 0 freshRecord (quietData (fin 150))
      = some { portion := fin 0.25, reason := Reason.priceTarget } := by
  have h1 := first_target_at_150 config 0 freshRecord (quietData (fin 150)) rfl rfl rfl rfl rfl
    (by norm_num [maxHoldCond, hoursElapsed, freshRecord, config, JSNum.gt, JSNum.lt])
    (by norm_num [marketCapCond, quietData, config, JSNum.ge, JSNum.le])
    (by norm_num [stopLossCond, priceRatio, freshRecord, quietData, JSNum.div, JSNum.le,
      config])
    (by norm_num [volumeSpikeCond, freshRecord, quietData, JSNum.mul, JSNum.gt, JSNum.lt,
      config])
  have h2 := first_target_at_150 highMinProfit 0 freshRecord (quietData (fin 150)) rfl rfl rfl
    rfl rfl
    (by norm_num [maxHoldCond, hoursElapsed, freshRecord, highMinProfit, config, JSNum.gt,
      JSNum.lt])
    (by norm_num [marketCapCond, quietData, highMinProfit, config, JSNum.ge, JSNum.le])
    (by norm_num [stopLossCond, priceRatio, freshRecord, quietData, JSNum.div, JSNum.le,
      highMinProfit, config])
    (by norm_num [volumeSpikeCond, freshRecord, quietData, JSNum.mul, JSNum.gt, JSNum.lt,
      highMinProfit, config])
  have hc : config.minProfit ≤ 1.5 := by norm_num [config]
  have hp : ¬ highMinProfit.minProfit ≤ 1.5 := by norm_num [highMinProfit]
  rw [if_pos hc] at h1
  rw [if_neg hp] at h2
  exact ⟨h1, h2⟩

/-- Counterexample C4: a record bought at 100, well within the hold time, and
fetched token data whose price is 0: the iteration sells the whole position for
stop-loss and the record leaves the ledger. -/
theorem zero_price_triggers_stop_loss :
    maxHoldCond config 0 freshRecord = false ∧
    monitorStep config (Ledger.empty.set walletA tokenA freshRecord) walletA tokenA 0
        (some (quietData (fin 0))) true
      = ((Ledger.empty.set walletA tokenA freshRecord).delete walletA tokenA,
          some { portion := fin 1, reason := Reason.stopLoss }) := by
  refine ⟨?_, ?_⟩
  · norm_num [maxHoldCond, hoursElapsed, freshRecord, config, JSNum.gt, JSNum.lt]
  · have h : monitorDecide config 0 freshRecord (quietData (fin 0))
        = some { portion := fin 1, reason := Reason.stopLoss } := by
      norm_num [monitorDecide, hoursElapsed, freshRecord, quietData, config, JSNum.gt,
        JSNum.lt, JSNum.ge, JSNum.le, JSNum.div, JSNum.mul, JSNum.sub, JSNum.add, JSNum.neg,
        JSNum.strictEq]
    rw [monitorStep_sale config rfl _ walletA tokenA 0 _ freshRecord _ (set_same _ _ _ _) h]
    norm_num [afterSale, soldPortionsWritten, freshRecord, JSNum.add, JSNum.ge, JSNum.le]

/-- C4 (amended): for a record within the maximum hold time and fetched token
data whose market cap is under the target, (a) a price `<= 0` against a positive
buy price makes the loop body sell the remaining balance for stop-loss (given a
stop-loss ratio that is not negative); (b) a missing price triggers none of the
price rules: the body sells for volume spike if that rule holds and otherwise
does nothing, and then the iteration returns the ledger unchanged with no
`executeSell` call. -/
theorem nonpositive_price_step (cfg : Config) (now : ℤ) (r : Position) (td : TokenData)
    (hhold : maxHoldCond cfg now r = false) (hcap : marketCapCond cfg td = false) :
    (∀ p b : ℚ, 0 ≤ cfg.stopLoss → td.price = fin p → p ≤ 0 → r.buyPrice = fin b → 0 < b →
        monitorDecide cfg now r td
          = some { portion := remaining r, reason := Reason.stopLoss }) ∧
    (td.price = nan →
        monitorDecide cfg now r td
          = (if volumeSpikeCond cfg r td then
              some { portion := remaining r, reason := Reason.volumeSpike }
            else none)) ∧
    (td.price = nan → volumeSpikeCond cfg r td = false →
        ∀ (l : Ledger) (w t : String) (swapOk : Bool), l w t = some r →
          monitorStep cfg l w t now (some td) swapOk = (l, none)) := by
  have hnan : td.price = nan →
      monitorDecide cfg now r td
        = (if volumeSpikeCond cfg r td then
            some { portion := remaining r, reason := Reason.volumeSpike }
          else none) := by
    intro hprice
    rw [monitorDecide_conds, hhold, hcap]
    have h3 : stopLossCond cfg r td = false := by
      simp [stopLossCond, priceRatio, hprice, div_nan_left, JSNum.le]
    have h5 : minProfitCond cfg r td = false := by
      simp [minProfitCond, priceRatio, hprice, div_nan_left, JSNum.ge, le_nan_right]
    have h6 : stagedDecision cfg r td = none := by
      simp [stagedDecision, shouldSell, hprice, JSNum.ge, le_nan_right]
    simp [h3, h5, h6]
  refine ⟨?_, hnan, ?_⟩
  · intro p b hsl hprice hp hbuy hb
    rw [monitorDecide_conds, hhold, hcap]
    have h3 : stopLossCond cfg r td = true := by
      have hb0 : b ≠ 0 := ne_of_gt hb
      have : p / b ≤ 0 := div_nonpos_of_nonpos_of_nonneg hp (le_of_lt hb)
      simp [stopLossCond, priceRatio, hprice, hbuy, JSNum.div, hb0, JSNum.le]
      linarith
    simp [h3]
  · intro hprice hvol l w t swapOk hl
    have hd := hnan hprice
    rw [hvol] at hd
    simp only [monitorStep, hl]
    rw [show monitorDecide cfg now r td = none from by simpa using hd]

/-- Witness C4 (amended): the record bought at 100 with a price of 0 is sold
for stop-loss; with the price missing and the volume unchanged nothing is done. -/
theorem nonpositive_price_step_witness :
    monitorDecide config 0 freshRecord (quietData (fin 0))
      = some { portion := remaining freshRecord, reason := Reason.stopLoss } ∧
    monitorStep config (Ledger.empty.set walletA tokenA freshRecord) walletA tokenA 0
        (some (quietData nan)) true
      = (Ledger.empty.set walletA tokenA freshRecord, none) := by
  have hhold : maxHoldCond config 0 freshRecord = false := by
    norm_num [maxHoldCond, hoursElapsed, freshRecord, config, JSNum.gt, JSNum.lt]
  have hcap : ∀ p, marketCapCond config (quietData p) = false := by
    intro p
    norm_num [marketCapCond, quietData, config, JSNum.ge, JSNum.le]
  have hvol : volumeSpikeCond config freshRecord (quietData nan) = false := by
    norm_num [volumeSpikeCond, freshRecord, quietData, JSNum.mul, JSNum.gt, JSNum.lt, config]
  refine ⟨?_, ?_⟩
  · exact (nonpositive_price_step config 0 freshRecord (quietData (fin 0)) hhold (hcap _)).1
      0 100 (by norm_num [config]) rfl le_rfl rfl (by norm_num)
  · exact (nonpositive_price_step config 0 freshRecord (quietData nan) hhold (hcap _)).2.2
      rfl hvol _ walletA tokenA true (by simp [Ledger.set])

/-- Counterexample C5: a buy for a key whose record has a quarter sold returns
normally and stores a fresh record in its place. -/
theorem duplicate_buy_overwrites :
    (Ledger.empty.set walletA tokenA quarterSoldRecord) walletA tokenA
      = some quarterSoldRecord ∧
    executeBuy config (Ledger.empty.set walletA tokenA quarterSoldRecord) walletA tokenA
        0.0125 500 true (some (quietData (fin 7)))
      = .ok ((Ledger.empty.set walletA tokenA quarterSoldRecord).set walletA tokenA
          { amount := 0.0125, buyPrice := fin 7, buyTime := 500, soldPortions := fin 0,
            initialVolume := fin 30000 }) ∧
    Option.map Position.soldPortions
        (((Ledger.empty.set walletA tokenA quarterSoldRecord).set walletA tokenA
          { amount := 0.0125, buyPrice := fin 7, buyTime := 500, soldPortions := fin 0,
            initialVolume := fin 30000 }) walletA tokenA)
      = some (fin 0) ∧
    quarterSoldRecord.soldPortions ≠ fin 0 := by
  refine ⟨set_same _ _ _ _, ?_, ?_, ?_⟩
  · simp [executeBuy, config, quietData]
  · simp [set_same]
  · norm_num [quarterSoldRecord]

/-- C5 (amended): `executeBuy` in real mode makes no duplicate check.  For a
key that holds a live record, when the swap goes through and the token data are
fetched it returns normally and replaces the record by a fresh one (the amount
bought, the fetched price, the current time, `soldPortions` 0, the fetched
volume), leaving every other key as it was; it fails only when the swap throws
or the fetch returns null, in which case no ledger is written. -/
theorem executeBuy_replaces_live_record (cfg : Config) (hreal : cfg.mode = Mode.real)
    (l : Ledger) (w t : String) (amountEth : ℚ) (now : ℤ) (old : Position)
    (_hlive : l w t = some old) :
    (∀ td : TokenData,
        ∃ l', executeBuy cfg l w t amountEth now true (some td) = .ok l' ∧
          l' w t = some { amount := amountEth, buyPrice := td.price, buyTime := now,
                          soldPortions := fin 0, initialVolume := td.volume } ∧
          ∀ w' t', ¬ (w' = w ∧ t' = t) → l' w' t' = l w' t') ∧
    (∀ fetched, executeBuy cfg l w t amountEth now false fetched
        = .error Failure.swapFailed) ∧
    executeBuy cfg l w t amountEth now true none = .error Failure.typeError := by
  refine ⟨?_, ?_, ?_⟩
  · intro td
    refine ⟨l.set w t (Position.mk amountEth td.price now (fin 0) td.volume),
      by simp [executeBuy, hreal], set_same _ _ _ _, ?_⟩
    intro w' t' hne
    simp [Ledger.set, hne]
  · intro fetched
    simp [executeBuy, hreal]
  · simp [executeBuy, hreal]

/-- Witness C5 (amended): the shipped configuration, a ledger holding the
quarter-sold record, and a second buy of the same token. -/
theorem executeBuy_replaces_live_record_witness :
    ∃ l', executeBuy config (Ledger.empty.set walletA tokenA quarterSoldRecord)
        walletA tokenA 0.0125 500 true (some (quietData (fin 7))) = .ok l' ∧
      l' walletA tokenA
        = some { amount := 0.0125, buyPrice := fin 7, buyTime := 500, soldPortions := fin 0,
                 initialVolume := fin 30000 } := by
  obtain ⟨l', h1, h2, _⟩ :=
    (executeBuy_replaces_live_record config rfl
      (Ledger.empty.set walletA tokenA quarterSoldRecord) walletA tokenA 0.0125 500
      quarterSoldRecord (set_same _ _ _ _)).1 (quietData (fin 7))
  exact ⟨l', h1, h2⟩

/-! ## The staged targets -/

/-- Outside the range of stored records: with `soldPortions = 1`, which
`executeSell` never leaves in the ledger, the index 4 runs past the end; the
target is taken at the clamped index 3 (100 * 5.0 = 500) while the portion
lookup, which has no fallback, yields undefined. -/
theorem staged_portion_past_end :
    getPriceTarget config (fin 100) (fin 1) = fin 500 ∧
    stagedDecision config { freshRecord with soldPortions := fin 1 } (quietData (fin 600))
      = some { portion := nan, reason := Reason.priceTarget } ∧
    JSNum.ofElem config.sellIntervals[3]? = fin 1 := by
  have hidx : intervalIndex (fin 1) = fin 4 := by
    rw [intervalIndex_fin]
    norm_num
  have htarget : getPriceTarget config (fin 100) (fin 1) = fin 500 := by
    norm_num [getPriceTarget, hidx, config, orElse, JSNum.index, JSNum.ofElem, JSNum.mul,
      Int.toNat]
  refine ⟨htarget, ?_, ?_⟩
  · have hport : stagedPortion config { freshRecord with soldPortions := fin 1 } = nan := by
      norm_num [stagedPortion, hidx, config, JSNum.index, JSNum.ofElem, Int.toNat]
    simp only [stagedDecision, hport]
    norm_num [freshRecord, htarget, shouldSell, quietData, JSNum.ge, JSNum.le]
  · norm_num [config, JSNum.ofElem]

/-- The staged block for `soldPortions = q >= 0` and price targets without a
zero entry: the target is `buyPrice * priceTargets[k]` with
`k = floor(q / 0.25)` clamped to the last index, and the block sells
`sellIntervals[floor(q / 0.25)]` when the price has reached the target and
nothing otherwise. -/
theorem staged_block_eval (cfg : Config) (hnz : ∀ m ∈ cfg.priceTargets, m ≠ 0)
    (r : Position) (td : TokenData) (q : ℚ) (hs : r.soldPortions = fin q) (hq : 0 ≤ q) :
    getPriceTarget cfg r.buyPrice r.soldPortions
      = JSNum.mul r.buyPrice (JSNum.ofElem
          cfg.priceTargets[min ⌊q / 0.25⌋.toNat (cfg.priceTargets.length - 1)]?) ∧
    stagedDecision cfg r td
      = (if JSNum.ge td.price (JSNum.mul r.buyPrice (JSNum.ofElem
            cfg.priceTargets[min ⌊q / 0.25⌋.toNat (cfg.priceTargets.length - 1)]?)) then
          some { portion := JSNum.ofElem cfg.sellIntervals[⌊q / 0.25⌋.toNat]?,
                 reason := Reason.priceTarget }
        else none) := by
  have hk := floor_quarter_nonneg q hq
  have htarget : getPriceTarget cfg r.buyPrice r.soldPortions
      = JSNum.mul r.buyPrice (JSNum.ofElem
          cfg.priceTargets[min ⌊q / 0.25⌋.toNat (cfg.priceTargets.length - 1)]?) := by
    simp only [getPriceTarget, hs, intervalIndex_fin, index_intCast _ _ hk,
      orElse_clamp _ hnz]
  have hport : stagedPortion cfg r = JSNum.ofElem cfg.sellIntervals[⌊q / 0.25⌋.toNat]? := by
    simp only [stagedPortion, hs, intervalIndex_fin, index_intCast _ _ hk]
  refine ⟨htarget, ?_⟩
  simp only [stagedDecision, hport, shouldSell]
  rw [htarget]

/-- C9: for price targets without a zero entry (as shipped), every buy price,
every `soldPortions = q >= 0` and every price, with `k = floor(q / 0.25)` clamped
to the last index of `priceTargets`: `getPriceTarget` returns
`buyPrice * priceTargets[k]`, `shouldSell` is true exactly when the price is `>=`
that target, and, the index being one of `priceTargets`, the staged block then
sells `sellIntervals[k]` and otherwise sells nothing.  Under the shipped
configuration every record of every reachable ledger has such a `soldPortions`,
so for every record the monitor reads the staged block sells `sellIntervals[k]`
for the clamped `k` exactly when the price has reached
`buyPrice * priceTargets[k]`. -/
theorem staged_target_decision :
    (∀ (cfg : Config), (∀ m ∈ cfg.priceTargets, m ≠ 0) →
      ∀ (r : Position) (td : TokenData) (q : ℚ), r.soldPortions = fin q → 0 ≤ q →
        getPriceTarget cfg r.buyPrice r.soldPortions
          = JSNum.mul r.buyPrice (JSNum.ofElem
              cfg.priceTargets[min ⌊q / 0.25⌋.toNat (cfg.priceTargets.length - 1)]?) ∧
        (shouldSell td r.buyPrice (getPriceTarget cfg r.buyPrice r.soldPortions) = true ↔
          JSNum.ge td.price (JSNum.mul r.buyPrice (JSNum.ofElem
            cfg.priceTargets[min ⌊q / 0.25⌋.toNat (cfg.priceTargets.length - 1)]?)) = true) ∧
        (⌊q / 0.25⌋.toNat < cfg.priceTargets.length →
          stagedDecision cfg r td
            = (if JSNum.ge td.price (JSNum.mul r.buyPrice (JSNum.ofElem
                  cfg.priceTargets[min ⌊q / 0.25⌋.toNat (cfg.priceTargets.length - 1)]?)) then
                some { portion := JSNum.ofElem
                         cfg.sellIntervals[min ⌊q / 0.25⌋.toNat
                           (cfg.priceTargets.length - 1)]?,
                       reason := Reason.priceTarget }
              else none))) ∧
    (∀ l, Reach config anyData l →
      ∀ (w t : String) (r : Position) (td : TokenData), l w t = some r →
        ∃ q : ℚ, r.soldPortions = fin q ∧ 0 ≤ q ∧
          ⌊q / 0.25⌋.toNat < config.priceTargets.length ∧
          stagedDecision config r td
            = (if JSNum.ge td.price (JSNum.mul r.buyPrice (JSNum.ofElem
                  config.priceTargets[min ⌊q / 0.25⌋.toNat
                    (config.priceTargets.length - 1)]?)) then
                some { portion := JSNum.ofElem
                         config.sellIntervals[min ⌊q / 0.25⌋.toNat
                           (config.priceTargets.length - 1)]?,
                       reason := Reason.priceTarget }
              else none)) := by
  have hmain : ∀ (cfg : Config), (∀ m ∈ cfg.priceTargets, m ≠ 0) →
      ∀ (r : Position) (td : TokenData) (q : ℚ), r.soldPortions = fin q → 0 ≤ q →
        ⌊q / 0.25⌋.toNat < cfg.priceTargets.length →
        stagedDecision cfg r td
          = (if JSNum.ge td.price (JSNum.mul r.buyPrice (JSNum.ofElem
                cfg.priceTargets[min ⌊q / 0.25⌋.toNat (cfg.priceTargets.length - 1)]?)) then
              some { portion := JSNum.ofElem
                       cfg.sellIntervals[min ⌊q / 0.25⌋.toNat
                         (cfg.priceTargets.length - 1)]?,
                     reason := Reason.priceTarget }
            else none) := by
    intro cfg hnz r td q hs hq hi
    have hmin : min ⌊q / 0.25⌋.toNat (cfg.priceTargets.length - 1) = ⌊q / 0.25⌋.toNat := by
      omega
    rw [(staged_block_eval cfg hnz r td q hs hq).2, hmin]
  refine ⟨?_, ?_⟩
  · intro cfg hnz r td q hs hq
    have h := staged_block_eval cfg hnz r td q hs hq
    refine ⟨h.1, ?_, hmain cfg hnz r td q hs hq⟩
    rw [h.1]
    rfl
  · intro l hl w t r td hr
    obtain ⟨q, hs, h0, h1⟩ := reach_in_range l hl w t r hr
    have hlt : ⌊q / 0.25⌋.toNat < config.priceTargets.length := by
      have h4 := floor_quarter_lt_four q h1
      have hlen : config.priceTargets.length = 4 := rfl
      rw [hlen]
      omega
    exact ⟨q, hs, h0, hlt, hmain config config_targets_nonzero r td q hs h0 hlt⟩

/-- Witness C9: targets `[1.5, 2.0, 3.0, 5.0]`, equal fractions of 0.25, buy
price 100, `soldPortions` 0.25: the target is 200, a price of 210 sells 0.25 and
a price of 190 sells nothing; and the reachable record with a quarter sold has
its index among those of `priceTargets`. -/
theorem staged_target_decision_witness :
    getPriceTarget equalFractions quarterSoldRecord.buyPrice quarterSoldRecord.soldPortions
      = fin 200 ∧
    stagedDecision equalFractions quarterSoldRecord (quietData (fin 210))
      = some { portion := fin 0.25, reason := Reason.priceTarget } ∧
    stagedDecision equalFractions quarterSoldRecord (quietData (fin 190)) = none ∧
    (∃ q : ℚ, (zeroRecord (fin 0.25)).soldPortions = fin q ∧ 0 ≤ q ∧
      ⌊q / 0.25⌋.toNat < config.priceTargets.length) := by
  have hnz : ∀ m ∈ equalFractions.priceTargets, m ≠ 0 := config_targets_nonzero
  have hfloor : ⌊(0.25 : ℚ) / 0.25⌋ = 1 := by norm_num
  have hlt : ⌊(0.25 : ℚ) / 0.25⌋.toNat < equalFractions.priceTargets.length := by
    rw [hfloor]
    norm_num [equalFractions, config]
  have h210 := staged_target_decision.1 equalFractions hnz quarterSoldRecord
    (quietData (fin 210)) 0.25 rfl (by norm_num)
  have h190 := staged_target_decision.1 equalFractions hnz quarterSoldRecord
    (quietData (fin 190)) 0.25 rfl (by norm_num)
  have h210' := h210.2.2 hlt
  have h190' := h190.2.2 hlt
  rw [hfloor] at h210 h210' h190'
  obtain ⟨q, hs, h0, hi, _⟩ := staged_target_decision.2 (zeroLedger (fin 0.25))
    reach_zero_quarter walletA tokenA (zeroRecord (fin 0.25)) (quietData (fin 0))
    (zeroLedger_lookup _)
  refine ⟨?_, ?_, ?_, ⟨q, hs, h0, hi⟩⟩
  · rw [h210.1]
    norm_num [equalFractions, config, quarterSoldRecord, freshRecord, JSNum.ofElem, JSNum.mul]
  · rw [h210']
    norm_num [equalFractions, config, quarterSoldRecord, freshRecord, quietData, JSNum.ofElem,
      JSNum.mul, JSNum.ge, JSNum.le]
  · rw [h190']
    norm_num [equalFractions, config, quarterSoldRecord, freshRecord, quietData, JSNum.ofElem,
      JSNum.mul, JSNum.ge, JSNum.le]

/-! ## The ledger -/

/-- C3 (defect): real mode, shipped configuration.  A buy while the
provider reports price 0, then two monitor passes at price 0 (staged sales of
0.25 and 0.5) reach a ledger whose record has `soldPortions = 0.75`; the next
pass calls `executeSell` with portion 1.0, and `soldPortions += portion` writes
1.75, which is above 1. -/
theorem written_portion_exceeds_one :
    Reach config anyData (zeroLedger (fin 0.75)) ∧
    zeroLedger (fin 0.75) walletA tokenA = some (zeroRecord (fin 0.75)) ∧
    monitorDecide config 0 (zeroRecord (fin 0.75)) (quietData (fin 0))
      = some { portion := fin 1, reason := Reason.priceTarget } ∧
    soldPortionsWritten (zeroRecord (fin 0.75)) (fin 1) = fin 1.75 ∧
    JSNum.le (fin 1.75) (fin 1) = false := by
  refine ⟨reach_zero_three_quarters, zeroLedger_lookup _, zero_decision_third, ?_, ?_⟩
  · norm_num [soldPortionsWritten, zeroRecord, JSNum.add]
  · norm_num [JSNum.le]

/-- What does hold of the ledger in real mode under the shipped configuration.
In every ledger reachable from the empty map by buys and monitor iterations,
every stored record has `0 <= soldPortions < 1`, and after any `executeSell` that
returns no record with `soldPortions >= 1` is left.  When every buy fetched a
positive price, the value written by `soldPortions += portion` in a sale issued
by the monitor is exactly 1. -/
theorem stored_records_in_range :
    (∀ l, Reach config anyData l → ∀ w t r, l w t = some r →
        JSNum.le (fin 0) r.soldPortions = true ∧ JSNum.lt r.soldPortions (fin 1) = true) ∧
    (∀ l, Reach config anyData l →
        ∀ (w t : String) (portion : JSNum) (swapOk : Bool) (l' : Ledger),
          executeSell config l w t portion swapOk = .ok l' →
          ∀ w' t' r', l' w' t' = some r' → JSNum.ge r'.soldPortions (fin 1) = false) ∧
    (∀ l, Reach config positivePrice l →
        ∀ (w t : String) (r : Position) (now : ℤ) (td : TokenData) (call : SellCall),
          l w t = some r → monitorDecide config now r td = some call →
          soldPortionsWritten r call.portion = fin 1) := by
  refine ⟨?_, ?_, ?_⟩
  · intro l hl w t r hr
    obtain ⟨q, hs, h0, h1⟩ := reach_in_range l hl w t r hr
    simp [hs, JSNum.le, JSNum.lt, h0, h1]
  · intro l hl w t portion swapOk l' hex w' t' r' hr'
    have hold : ∀ w' t' r', l w' t' = some r' → JSNum.ge r'.soldPortions (fin 1) = false := by
      intro w' t' r' h
      obtain ⟨q, hs, _, h1⟩ := reach_in_range l hl w' t' r' h
      simp [hs, JSNum.ge, JSNum.le, h1]
    cases hlw : l w t with
    | none => simp [executeSell, config, hlw] at hex
    | some r =>
      cases swapOk with
      | false => rw [executeSell_failed config rfl l w t portion r hlw] at hex; cases hex
      | true =>
        rw [executeSell_ok config rfl l w t portion r hlw] at hex
        cases hex
        rcases afterSale_records l w t r portion w' t' r' hr' with h | ⟨h, hge⟩
        · exact hold w' t' r' h
        · rw [h]; exact hge
  · intro l hl w t r now td call hr hd
    obtain ⟨hs, b, hb, hpos⟩ := reach_untouched l hl w t r hr
    rw [(full_exit_only now r td b hb hpos hs call hd).1]
    norm_num [soldPortionsWritten, hs, JSNum.add]

/-- C7 (defect): under the shipped configuration the staged portions are 0.25,
0.5, 0.75 and 1.0 for the tier indices 0 to 3, not 0.25 each.  The record with
a quarter sold that a buy at price 0 leads to is sold by 0.5 at the next pass,
and so is the record bought at 100 with a quarter sold at a price of 210. -/
theorem staged_portions_shipped :
    stagedPortion config (zeroRecord (fin 0)) = fin 0.25 ∧
    stagedPortion config (zeroRecord (fin 0.25)) = fin 0.5 ∧
    stagedPortion config (zeroRecord (fin 0.5)) = fin 0.75 ∧
    stagedPortion config (zeroRecord (fin 0.75)) = fin 1 ∧
    Reach config anyData (zeroLedger (fin 0.25)) ∧
    (monitorStep config (zeroLedger (fin 0.25)) walletA tokenA 0
        (some (quietData (fin 0))) true).2
      = some { portion := fin 0.5, reason := Reason.priceTarget } ∧
    monitorDecide config 0 quarterSoldRecord (quietData (fin 210))
      = some { portion := fin 0.5, reason := Reason.priceTarget } := by
  have h0 : intervalIndex (fin 0) = fin 0 := by rw [intervalIndex_fin]; norm_num
  have h1 : intervalIndex (fin 0.25) = fin 1 := by rw [intervalIndex_fin]; norm_num
  have h2 : intervalIndex (fin 0.5) = fin 2 := by rw [intervalIndex_fin]; norm_num
  have h3 : intervalIndex (fin 0.75) = fin 3 := by rw [intervalIndex_fin]; norm_num
  refine ⟨?_, ?_, ?_, ?_, reach_zero_quarter, ?_, ?_⟩
  · simp only [stagedPortion, zeroRecord, h0]
    norm_num [JSNum.index, JSNum.ofElem, config, Int.toNat]
  · simp only [stagedPortion, zeroRecord, h1]
    norm_num [JSNum.index, JSNum.ofElem, config, Int.toNat]
  · simp only [stagedPortion, zeroRecord, h2]
    norm_num [JSNum.index, JSNum.ofElem, config, Int.toNat]
  · simp only [stagedPortion, zeroRecord, h3]
    norm_num [JSNum.index, JSNum.ofElem, config, Int.toNat]
  · rw [monitorStep_call config _ walletA tokenA 0 _ true _ (zeroLedger_lookup _)]
    exact zero_decision_second
  · simp only [monitorDecide, stagedDecision, stagedPortion, getPriceTarget, quarterSoldRecord,
      freshRecord, h1]
    norm_num [shouldSell, orElse, JSNum.index, JSNum.ofElem, hoursElapsed, quietData, config,
      JSNum.gt, JSNum.lt, JSNum.ge, JSNum.le, JSNum.div, JSNum.mul, JSNum.strictEq, Int.toNat]

/-- C10: shipped configuration.  For a record with a positive buy price and
nothing sold the staged target is `buyPrice * 1.5`; when the price reaches it an
earlier rule sells the whole position, and every sale the loop body makes on
such a record is of portion 1 by a rule other than the staged one.  Hence, in
every ledger reachable through buys at a positive price, every record has
`soldPortions = 0` and every sale the monitor issues is a full exit of
portion 1. -/
theorem staged_rule_unreachable :
    (∀ (now : ℤ) (r : Position) (td : TokenData) (b : ℚ),
        r.buyPrice = fin b → 0 < b → r.soldPortions = fin 0 →
        getPriceTarget config r.buyPrice r.soldPortions = JSNum.mul r.buyPrice (fin 1.5) ∧
        (JSNum.ge td.price (JSNum.mul r.buyPrice (fin 1.5)) = true →
          ∃ reason, reason ≠ Reason.priceTarget ∧
            monitorDecide config now r td = some { portion := fin 1, reason := reason }) ∧
        (∀ call, monitorDecide config now r td = some call →
          call.portion = fin 1 ∧ call.reason ≠ Reason.priceTarget)) ∧
    (∀ l, Reach config positivePrice l → ∀ w t r, l w t = some r →
        r.soldPortions = fin 0 ∧
        ∀ (now : ℤ) (td : TokenData) (swapOk : Bool) (call : SellCall),
          (monitorStep config l w t now (some td) swapOk).2 = some call →
          call.portion = fin 1 ∧ call.reason ≠ Reason.priceTarget) := by
  refine ⟨?_, ?_⟩
  · intro now r td b hb hpos hs
    have hidx : intervalIndex (fin 0) = fin 0 := by rw [intervalIndex_fin]; norm_num
    have htarget : getPriceTarget config r.buyPrice r.soldPortions
        = JSNum.mul r.buyPrice (fin 1.5) := by
      simp only [getPriceTarget, hs, hidx]
      norm_num [config, orElse, JSNum.index, JSNum.ofElem]
    refine ⟨htarget, ?_, full_exit_only now r td b hb hpos hs⟩
    intro hge
    cases hd : monitorDecide config now r td with
    | some call =>
      obtain ⟨hp, hr⟩ := full_exit_only now r td b hb hpos hs call hd
      refine ⟨call.reason, hr, ?_⟩
      rw [← hp]
    | none =>
      exfalso
      rw [monitorDecide_conds] at hd
      split_ifs at hd
      simp only [stagedDecision, htarget, shouldSell, hge, if_true] at hd
      cases hd
  · intro l hl w t r hr
    obtain ⟨hs, b, hb, hpos⟩ := reach_untouched l hl w t r hr
    refine ⟨hs, ?_⟩
    intro now td swapOk call hcall
    rw [monitorStep_call config l w t now td swapOk r hr] at hcall
    exact full_exit_only now r td b hb hpos hs call hcall

/-- Witness C10: the record bought at 100, price 150 (the first target): the
whole position is sold for minimum profit. -/
theorem staged_rule_unreachable_witness :
    JSNum.ge (quietData (fin 150)).price (JSNum.mul freshRecord.buyPrice (fin 1.5)) = true ∧
    (∃ reason, reason ≠ Reason.priceTarget ∧
      monitorDecide config 0 freshRecord (quietData (fin 150))
        = some { portion := fin 1, reason := reason }) ∧
    Reach config positivePrice boughtOnce ∧
    freshRecord.soldPortions = fin 0 := by
  have hge : JSNum.ge (quietData (fin 150)).price (JSNum.mul freshRecord.buyPrice (fin 1.5))
      = true := by
    norm_num [quietData, freshRecord, JSNum.mul, JSNum.ge, JSNum.le]
  exact ⟨hge,
    (staged_rule_unreachable.1 0 freshRecord (quietData (fin 150)) 100 rfl (by norm_num)
      rfl).2.1 hge,
    reach_bought_once,
    (staged_rule_unreachable.2 boughtOnce reach_bought_once walletA tokenA freshRecord
      (set_same _ _ _ _)).1⟩

end Autobuysell
